import Mathlib

/-!
Shallow embedding of the benchmark-comparison engine of
`ollama-distributed/scripts/generate-performance-charts.py`.

Python floats are modelled as rationals (`ℚ`); Python values that may appear
in a benchmark's `ns_per_op` field are modelled by `PyVal` (a JSON number or
a string); Python exceptions (`KeyError` from `b['name']` on a dict without
that key, `TypeError` from comparing a string with a number) are modelled by
`Except PyErr`.  Python dicts built by `{b['name']: b for b in ...}` are
modelled as association lists whose lookup takes the first match; insertion
appends at the front of the search order of later elements, giving
last-write-wins semantics.
-/

namespace PerfCharts

/-- A JSON scalar that may appear in a benchmark's `ns_per_op` field:
a number, or a non-numeric string. -/
inductive PyVal where
  | num (q : ℚ)
  | str (s : String)
deriving DecidableEq, Repr

/-- The Python exceptions the embedded code can raise:
`KeyError` from `b['name']` when the key is absent, `TypeError` from
comparing a string with a number. -/
inductive PyErr where
  | keyError
  | typeError
deriving DecidableEq, Repr

/-- A raw benchmark entry of the input JSON document: the `name` key may be
absent, and `ns_per_op` may be absent or hold a non-numeric value. -/
structure RawBench where
  name : Option String
  ns_per_op : Option PyVal
deriving DecidableEq, Repr

/-- `b.get('ns_per_op', 0)`: the field's value, defaulting to `0`. -/
def getNs (b : RawBench) : PyVal :=
  b.ns_per_op.getD (PyVal.num 0)

/-- Python's `v > q` for numeric `q`: raises `TypeError` when `v` is a
string. -/
def pyGt (v : PyVal) (q : ℚ) : Except PyErr Bool :=
  match v with
  | .num x => .ok (decide (q < x))
  | .str _ => .error .typeError

/-- The rational carried by a numeric `PyVal` (only reached on code paths
where a preceding `pyGt` succeeded, hence the value is numeric). -/
def asNum (v : PyVal) : ℚ :=
  match v with
  | .num x => x
  | .str _ => 0

/-- Whether a `PyVal` is numeric. -/
def isNum : PyVal → Bool
  | .num _ => true
  | .str _ => false

/-- `{b['name']: b for b in baseline_benchmarks}` (lines 40 and 315):
builds the baseline lookup dict, raising `KeyError` at the first entry
without a `name`.  The dict is an association list searched front-to-back;
entries of later list elements are placed in front of the pair for the head,
so a duplicate name resolves to its last occurrence (last-write-wins). -/
def buildLookup : List RawBench → Except PyErr (List (String × RawBench))
  | [] => .ok []
  | b :: rest =>
    match b.name with
    | none => .error .keyError
    | some n =>
      match buildLookup rest with
      | .error e => .error e
      | .ok d => .ok (d ++ [(n, b)])

/-- Dict lookup: the first pair in search order whose key equals `n`
(exact string equality, as Python dict keys). -/
def dictFind (d : List (String × RawBench)) (n : String) : Option RawBench :=
  (d.find? (fun p => p.1 == n)).map Prod.snd

/-- The last benchmark of `baseline` whose `name` is exactly `n`
(specification-side description of the dict's last-write-wins content). -/
def lastMatch (baseline : List RawBench) (n : String) : Option RawBench :=
  (baseline.filter (fun b => decide (b.name = some n))).getLast?

/-- `change_pct` as computed at line 326:
`((current_ns - baseline_ns) / baseline_ns) * 100`. -/
def changePct (current_ns baseline_ns : ℚ) : ℚ :=
  ((current_ns - baseline_ns) / baseline_ns) * 100

/-- The three outcomes of classifying a matched benchmark pair. -/
inductive Classification where
  | Regression
  | Improvement
  | Unchanged
deriving DecidableEq, Repr

/-- The classification branch structure of lines 327–330 of
`create_summary_report`, with its hard-coded 5% threshold:
`change > 5` → Regression, `change < -5` → Improvement, else Unchanged. -/
def classify (change : ℚ) : Classification :=
  if 5 < change then .Regression
  else if change < -5 then .Improvement
  else .Unchanged

/-- One row collected by the comparison loop of
`create_benchmark_comparison_chart` (lines 48–63): the display name with
`Benchmark` stripped, both timings, and the improvement percentage
`((baseline_ns - current_ns) / baseline_ns) * 100` (positive = faster). -/
structure CompEntry where
  name : String
  current_ns : ℚ
  baseline_ns : ℚ
  improvement : ℚ
deriving DecidableEq, Repr

/-- The comparison loop of `create_benchmark_comparison_chart`
(lines 48–63): iterate current benchmarks in order; `current_bench['name']`
raises `KeyError` when absent; skip when the name is not in the baseline
dict; evaluate `baseline_ns > 0 and current_ns > 0` with Python's
short-circuit (the left comparison first); skip when false; otherwise emit
a `CompEntry`. -/
def chartLoop (d : List (String × RawBench)) :
    List RawBench → Except PyErr (List CompEntry)
  | [] => .ok []
  | c :: rest =>
    match c.name with
    | none => .error .keyError
    | some n =>
      match dictFind d n with
      | none => chartLoop d rest
      | some b =>
        match pyGt (getNs b) 0 with
        | .error e => .error e
        | .ok false => chartLoop d rest
        | .ok true =>
          match pyGt (getNs c) 0 with
          | .error e => .error e
          | .ok false => chartLoop d rest
          | .ok true =>
            match chartLoop d rest with
            | .error e => .error e
            | .ok tail =>
              .ok ({ name := n.replace "Benchmark" ""
                     current_ns := asNum (getNs c)
                     baseline_ns := asNum (getNs b)
                     improvement :=
                       ((asNum (getNs b) - asNum (getNs c)) / asNum (getNs b)) * 100 } :: tail)

/-- The comparison part of `create_benchmark_comparison_chart`: build the
baseline lookup (line 40), then run the loop over current benchmarks. -/
def chartCompare (current baseline : List RawBench) :
    Except PyErr (List CompEntry) :=
  match buildLookup baseline with
  | .error e => .error e
  | .ok d => chartLoop d current

/-- The pure per-benchmark emission of the chart loop: what the loop
produces for one current entry, given the baseline dict, on runs where no
exception occurs. -/
def emitPure (d : List (String × RawBench)) (c : RawBench) : Option CompEntry :=
  match c.name with
  | none => none
  | some n =>
    match dictFind d n with
    | none => none
    | some b =>
      if 0 < asNum (getNs b) ∧ 0 < asNum (getNs c) then
        some { name := n.replace "Benchmark" ""
               current_ns := asNum (getNs c)
               baseline_ns := asNum (getNs b)
               improvement :=
                 ((asNum (getNs b) - asNum (getNs c)) / asNum (getNs b)) * 100 }
      else none

/-- The counting loop of `create_summary_report` (lines 317–330): same
matching and guard as the chart loop, then `change > 5` increments the
regression counter and `change < -5` the improvement counter. -/
def summaryLoop (d : List (String × RawBench)) :
    List RawBench → Except PyErr (ℕ × ℕ)
  | [] => .ok (0, 0)
  | c :: rest =>
    match c.name with
    | none => .error .keyError
    | some n =>
      match dictFind d n with
      | none => summaryLoop d rest
      | some b =>
        match pyGt (getNs b) 0 with
        | .error e => .error e
        | .ok false => summaryLoop d rest
        | .ok true =>
          match pyGt (getNs c) 0 with
          | .error e => .error e
          | .ok false => summaryLoop d rest
          | .ok true =>
            match summaryLoop d rest with
            | .error e => .error e
            | .ok ri =>
              let change := changePct (asNum (getNs c)) (asNum (getNs b))
              if 5 < change then .ok (ri.1 + 1, ri.2)
              else if change < -5 then .ok (ri.1, ri.2 + 1)
              else .ok ri

/-- The list comprehension of `calculate_performance_score` (line 238):
`[b.get('ns_per_op', 0) for b in benchmarks if b.get('ns_per_op', 0) > 0]`;
a non-numeric `ns_per_op` raises `TypeError` at the guard. -/
def nsValues : List RawBench → Except PyErr (List ℚ)
  | [] => .ok []
  | b :: rest =>
    match pyGt (getNs b) 0 with
    | .error e => .error e
    | .ok true =>
      match nsValues rest with
      | .error e => .error e
      | .ok tail => .ok (asNum (getNs b) :: tail)
    | .ok false => nsValues rest

/-- `calculate_performance_score` (lines 231–245): `0.0` for an empty
benchmark list or when no entry has positive `ns_per_op`; otherwise
`min(100, max(0, 100 - avg_ns / 1000))` for `avg_ns` the mean of the
positive values. -/
def calculate_performance_score (benchmarks : List RawBench) : Except PyErr ℚ :=
  if benchmarks = [] then .ok 0
  else
    match nsValues benchmarks with
    | .error e => .error e
    | .ok ns =>
      if ns = [] then .ok 0
      else .ok (min 100 (max 0 (100 - (ns.sum / (ns.length : ℚ)) / 1000)))

/-- The numeric `ns_per_op` values that are positive, read directly off the
raw entries (specification-side description of `nsValues` on well-formed
runs). -/
def posNs (benchmarks : List RawBench) : List ℚ :=
  (benchmarks.map (fun b => asNum (getNs b))).filter (fun q => decide (0 < q))

/-- A run whose entries all carry numeric (or absent) `ns_per_op` fields —
the shape the data model of the spec prescribes for a `Measurement`. -/
def NumericRun (benchmarks : List RawBench) : Prop :=
  ∀ b ∈ benchmarks, isNum (getNs b) = true

/-- The run-level numbers computed by `create_summary_report`
(lines 311–345 and 370). -/
structure Summary where
  total_benchmarks : ℕ
  regressions : ℕ
  improvements : ℕ
  unchanged : ℤ
  current_score : ℚ
  baseline_score : ℚ
  score_delta : ℚ
deriving DecidableEq, Repr

/-- The computational core of `create_summary_report` (lines 303–370):
total = `len(current_benchmarks)`, the two counters from the loop, the
`No Change` pie slice `total - regressions - improvements` (line 337), the
two scores (lines 344–345) and the score change (line 370). -/
def create_summary_report (current baseline : List RawBench) :
    Except PyErr Summary :=
  match buildLookup baseline with
  | .error e => .error e
  | .ok d =>
    match summaryLoop d current with
    | .error e => .error e
    | .ok ri =>
      match calculate_performance_score current with
      | .error e => .error e
      | .ok cs =>
        match calculate_performance_score baseline with
        | .error e => .error e
        | .ok bs =>
          .ok { total_benchmarks := current.length
                regressions := ri.1
                improvements := ri.2
                unchanged := (current.length : ℤ) - ri.1 - ri.2
                current_score := cs
                baseline_score := bs
                score_delta := cs - bs }

/-- The spec's classification of an emitted comparison row, following the
spec's words (§3, §4.2 step 5): the classification is a function of the
pair's `change_pct`. -/
def resultClassification (e : CompEntry) : Classification :=
  classify (changePct e.current_ns e.baseline_ns)

/-- The number of emitted comparison rows of a given classification
(specification-side counting over the emitted results). -/
def countClass (rs : List CompEntry) (k : Classification) : ℕ :=
  (rs.filter (fun e => decide (resultClassification e = k))).length

/-- Modelled from the spec: the outcome of opening and JSON-parsing the
input document, which happens inside `open`/`json.load` (Python library
code outside this repository): the document can be absent, unreadable,
malformed, or parse to a benchmark list in document order. -/
inductive DocOutcome where
  | absent
  | unreadable
  | malformed
  | parsed (benchmarks : List RawBench)
deriving DecidableEq, Repr

/-- `load_performance_data` (lines 23–30): returns the parsed data, or
`None` (modelled as `none`) when any exception occurred while opening or
parsing — the failure is returned to the caller, not raised. -/
def load_performance_data : DocOutcome → Option (List RawBench)
  | .parsed benchmarks => some benchmarks
  | _ => none

/-! ### Helper lemmas -/

theorem pyGt_zero_pos {v : PyVal} (h : pyGt v 0 = .ok true) : 0 < asNum v := by
  cases v with
  | num x => simpa [pyGt, asNum] using h
  | str s => simp [pyGt] at h

theorem pyGt_zero_not_pos {v : PyVal} (h : pyGt v 0 = .ok false) : ¬ 0 < asNum v := by
  cases v with
  | num x => simpa [pyGt, asNum] using h
  | str s => simp [pyGt] at h

/-- A successful run of the chart loop produces exactly the `filterMap` of
the pure per-entry emission over the current list, in order. -/
theorem chartLoop_ok_eq_filterMap (d : List (String × RawBench)) (cur : List RawBench) :
    ∀ rs : List CompEntry, chartLoop d cur = .ok rs → rs = cur.filterMap (emitPure d) := by
  induction cur with
  | nil =>
    intro rs h
    simp only [chartLoop, Except.ok.injEq] at h
    simp [← h]
  | cons c rest ih =>
    intro rs h
    cases hn : c.name with
    | none => simp [chartLoop, hn] at h
    | some n =>
      cases hf : dictFind d n with
      | none =>
        simp only [chartLoop, hn, hf] at h
        simp only [List.filterMap_cons, emitPure, hn, hf]
        exact ih rs h
      | some b =>
        cases hgb : pyGt (getNs b) 0 with
        | error e => simp [chartLoop, hn, hf, hgb] at h
        | ok gb =>
          cases gb with
          | false =>
            simp only [chartLoop, hn, hf, hgb] at h
            have hnb := pyGt_zero_not_pos hgb
            simp only [List.filterMap_cons, emitPure, hn, hf, if_neg (by tauto :
              ¬ (0 < asNum (getNs b) ∧ 0 < asNum (getNs c)))]
            exact ih rs h
          | true =>
            have hpb := pyGt_zero_pos hgb
            cases hgc : pyGt (getNs c) 0 with
            | error e => simp [chartLoop, hn, hf, hgb, hgc] at h
            | ok gc =>
              cases gc with
              | false =>
                simp only [chartLoop, hn, hf, hgb, hgc] at h
                have hnc := pyGt_zero_not_pos hgc
                simp only [List.filterMap_cons, emitPure, hn, hf, if_neg (by tauto :
                  ¬ (0 < asNum (getNs b) ∧ 0 < asNum (getNs c)))]
                exact ih rs h
              | true =>
                have hpc := pyGt_zero_pos hgc
                simp only [chartLoop, hn, hf, hgb, hgc] at h
                cases hr : chartLoop d rest with
                | error e => rw [hr] at h; exact absurd h (by simp)
                | ok tail =>
                  simp only [hr, Except.ok.injEq] at h
                  rw [← h]
                  simp only [List.filterMap_cons, emitPure, hn, hf]
                  rw [if_pos (show 0 < asNum (getNs b) ∧ 0 < asNum (getNs c) from ⟨hpb, hpc⟩)]
                  rw [ih tail hr]

/-- The counting loop of the summary report computes exactly the per-class
counts over the rows the chart loop emits (same matching, same guard, same
threshold test). -/
theorem summaryLoop_eq_chartLoop_counts (d : List (String × RawBench)) (cur : List RawBench) :
    summaryLoop d cur = (chartLoop d cur).map
      (fun rs => (countClass rs .Regression, countClass rs .Improvement)) := by
  induction cur with
  | nil => simp [summaryLoop, chartLoop, countClass, Except.map]
  | cons c rest ih =>
    cases hn : c.name with
    | none => simp [summaryLoop, chartLoop, hn, Except.map]
    | some n =>
      cases hf : dictFind d n with
      | none => simp only [summaryLoop, chartLoop, hn, hf]; exact ih
      | some b =>
        cases hgb : pyGt (getNs b) 0 with
        | error e => simp [summaryLoop, chartLoop, hn, hf, hgb, Except.map]
        | ok gb =>
          cases gb with
          | false => simp only [summaryLoop, chartLoop, hn, hf, hgb]; exact ih
          | true =>
            cases hgc : pyGt (getNs c) 0 with
            | error e => simp [summaryLoop, chartLoop, hn, hf, hgb, hgc, Except.map]
            | ok gc =>
              cases gc with
              | false => simp only [summaryLoop, chartLoop, hn, hf, hgb, hgc]; exact ih
              | true =>
                simp only [summaryLoop, chartLoop, hn, hf, hgb, hgc, ih]
                cases hr : chartLoop d rest with
                | error e => simp [Except.map]
                | ok tail =>
                  simp only [Except.map, countClass, resultClassification, List.filter_cons]
                  by_cases h1 : 5 < changePct (asNum (getNs c)) (asNum (getNs b))
                  · have h2 : ¬ changePct (asNum (getNs c)) (asNum (getNs b)) < -5 := by linarith
                    simp [classify, h1, h2]
                  · by_cases h2 : changePct (asNum (getNs c)) (asNum (getNs b)) < -5
                    · simp [classify, h1, h2]
                    · simp [classify, h1, h2]

/-- Every key of the dict built from the baseline list is the name of some
baseline entry. -/
theorem buildLookup_mem_name (bl : List RawBench) (d : List (String × RawBench))
    (h : buildLookup bl = .ok d) :
    ∀ p ∈ d, ∃ x ∈ bl, x.name = some p.1 := by
  induction bl generalizing d with
  | nil =>
    simp only [buildLookup, Except.ok.injEq] at h
    simp [← h]
  | cons b rest ih =>
    cases hn : b.name with
    | none => simp [buildLookup, hn] at h
    | some n =>
      cases hr : buildLookup rest with
      | error e => simp [buildLookup, hn, hr] at h
      | ok d' =>
        simp only [buildLookup, hn, hr, Except.ok.injEq] at h
        intro p hp
        rw [← h] at hp
        rcases List.mem_append.1 hp with hp' | hp'
        · rcases ih d' hr p hp' with ⟨x, hx, hxn⟩
          exact ⟨x, List.mem_cons_of_mem _ hx, hxn⟩
        · simp only [List.mem_singleton] at hp'
          exact ⟨b, List.mem_cons_self _ _, by rw [hp', hn]⟩

/-- Regression and improvement rows are disjoint, so their counts add up to
at most the number of emitted rows. -/
theorem countClass_add_le_length (rs : List CompEntry) :
    countClass rs .Regression + countClass rs .Improvement ≤ rs.length := by
  induction rs with
  | nil => simp [countClass]
  | cons e tail ih =>
    cases hcl : resultClassification e <;>
      simp [countClass, List.filter_cons, hcl] at ih ⊢ <;> omega

/-- On a run whose entries all carry numeric `ns_per_op` fields, the score's
list comprehension succeeds and returns exactly the positive values. -/
theorem nsValues_of_numeric (benchmarks : List RawBench) (h : NumericRun benchmarks) :
    nsValues benchmarks = .ok (posNs benchmarks) := by
  induction benchmarks with
  | nil => simp [nsValues, posNs]
  | cons b rest ih =>
    have hb : isNum (getNs b) = true := h b (List.mem_cons_self _ _)
    have hrest : NumericRun rest := fun x hx => h x (List.mem_cons_of_mem _ hx)
    cases hv : getNs b with
    | num q =>
      by_cases hq : 0 < q
      · simp [nsValues, posNs, pyGt, hv, hq, asNum, ih hrest, List.filter_cons]
      · simp [nsValues, posNs, pyGt, hv, hq, asNum, ih hrest, List.filter_cons]
    | str s => rw [hv] at hb; simp [isNum] at hb

/-- `filterMap` length equals the count of entries on which the function
fires. -/
theorem length_filterMap_eq_length_filter {α β : Type} (f : α → Option β) (l : List α) :
    (l.filterMap f).length = (l.filter (fun a => (f a).isSome)).length := by
  induction l with
  | nil => rfl
  | cons a t ih =>
    cases h : f a <;> simp [List.filterMap_cons, List.filter_cons, h, ih]

/-! ### Claim theorems -/

/-- C1: With the fixed threshold 5, the classification of a change
percentage is Regression exactly when it exceeds 5, Improvement exactly
when it is below -5, and Unchanged exactly otherwise — no gaps, no
overlaps; in particular a current 210 against a baseline 200 yields a
change of exactly 5 and is classified Unchanged. -/
theorem classification_threshold (change : ℚ) :
    (classify change = .Regression ↔ 5 < change) ∧
    (classify change = .Improvement ↔ change < -5) ∧
    (classify change = .Unchanged ↔ (change ≤ 5 ∧ -5 ≤ change)) ∧
    changePct 210 200 = 5 ∧ classify (changePct 210 200) = .Unchanged := by
  have h1 : changePct 210 200 = 5 := by norm_num [changePct]
  refine ⟨?_, ?_, ?_, h1, ?_⟩
  · unfold classify
    split_ifs with ha hb
    · simp [ha]
    · simp [ha]
    · simp [ha]
  · unfold classify
    split_ifs with ha hb
    · have hni : ¬ change < -5 := by linarith
      simp [hni]
    · simp [hb]
    · simp [hb]
  · unfold classify
    split_ifs with ha hb
    · simp [not_le.mpr ha]
    · simp [not_le.mpr hb]
    · simp [not_lt.mp ha, not_lt.mp hb]
  · rw [h1]
    norm_num [classify]

/-- C2: The per-benchmark delta is
`(current_ns - baseline_ns) / baseline_ns * 100`, positive exactly when
the current run is slower, and the summary loop classifies a single
matched positive pair by that delta against the ±5 threshold; for current
100 against baseline 200 the delta is -50 and the classification is
Improvement. -/
theorem change_pct_convention (n : String) (c b : ℚ) (hc : 0 < c) (hb : 0 < b) :
    summaryLoop [(n, ⟨some n, some (PyVal.num b)⟩)] [⟨some n, some (PyVal.num c)⟩] =
      .ok (if 5 < changePct c b then (1, 0)
           else if changePct c b < -5 then (0, 1) else (0, 0)) ∧
    (0 < changePct c b ↔ b < c) ∧
    changePct 100 200 = -50 ∧ classify (changePct 100 200) = .Improvement := by
  refine ⟨?_, ?_, by norm_num [changePct], ?_⟩
  · have hgb : pyGt (PyVal.num b) 0 = .ok true := by simp [pyGt, hb]
    have hgc : pyGt (PyVal.num c) 0 = .ok true := by simp [pyGt, hc]
    simp only [summaryLoop, dictFind, List.find?, beq_self_eq_true, Option.map_some',
      getNs, Option.getD, hgb, hgc, asNum]
    split_ifs <;> simp
  · rw [show changePct c b = (c - b) * 100 / b from by unfold changePct; ring,
      lt_div_iff₀ hb, zero_mul]
    constructor <;> intro h <;> linarith
  · rw [show changePct 100 200 = -50 from by norm_num [changePct]]
    norm_num [classify]

/-- C2 witness: the theorem applied to the matched pair current 100 /
baseline 200 named "A": one improvement, no regression. -/
theorem change_pct_convention_witness :
    summaryLoop [("A", ⟨some "A", some (PyVal.num 200)⟩)]
      [⟨some "A", some (PyVal.num 100)⟩] = .ok (0, 1) := by
  have h := (change_pct_convention "A" 100 200 (by norm_num) (by norm_num)).1
  rw [h]
  norm_num [changePct]

/-- C3: On a run whose entries carry numeric `ns_per_op` fields, the score
is defined, lies in `[0, 100]`, equals `0` when no entry has positive
`ns_per_op` (including the empty run), and otherwise equals
`min 100 (max 0 (100 - avg / 1000))` for `avg` the mean over exactly the
positive entries. -/
theorem calculate_performance_score_spec (benchmarks : List RawBench)
    (h : NumericRun benchmarks) :
    ∃ s : ℚ, calculate_performance_score benchmarks = .ok s ∧
      0 ≤ s ∧ s ≤ 100 ∧
      (posNs benchmarks = [] → s = 0) ∧
      (posNs benchmarks ≠ [] →
        s = min 100 (max 0
          (100 - ((posNs benchmarks).sum / ((posNs benchmarks).length : ℚ)) / 1000))) := by
  rcases eq_or_ne benchmarks [] with hbe | hbe
  · subst hbe
    refine ⟨0, by simp [calculate_performance_score], le_refl 0, by norm_num,
      fun _ => rfl, fun hne => absurd ?_ hne⟩
    simp [posNs]
  · have hns := nsValues_of_numeric benchmarks h
    rcases eq_or_ne (posNs benchmarks) [] with hpe | hpe
    · refine ⟨0, ?_, le_refl 0, by norm_num, fun _ => rfl, fun hne => absurd hpe hne⟩
      simp [calculate_performance_score, hbe, hns, hpe]
    · refine ⟨min 100 (max 0
        (100 - ((posNs benchmarks).sum / ((posNs benchmarks).length : ℚ)) / 1000)),
        ?_, ?_, min_le_left _ _, fun hp => absurd hp hpe, fun _ => rfl⟩
      · simp [calculate_performance_score, hbe, hns, hpe]
      · exact le_min (by norm_num) (le_max_left _ _)

/-- C3 witness: the theorem applied to the one-entry run with
`ns_per_op = 100`. -/
theorem calculate_performance_score_spec_witness :
    ∃ s : ℚ, calculate_performance_score [⟨some "A", some (PyVal.num 100)⟩] = .ok s ∧
      0 ≤ s ∧ s ≤ 100 ∧
      (posNs [⟨some "A", some (PyVal.num 100)⟩] = [] → s = 0) ∧
      (posNs [⟨some "A", some (PyVal.num 100)⟩] ≠ [] →
        s = min 100 (max 0
          (100 - ((posNs [⟨some "A", some (PyVal.num 100)⟩]).sum /
            ((posNs [⟨some "A", some (PyVal.num 100)⟩]).length : ℚ)) / 1000))) :=
  calculate_performance_score_spec [⟨some "A", some (PyVal.num 100)⟩]
    (by intro x hx; simp only [List.mem_singleton] at hx; subst hx; rfl)

/-- C7: every emitted comparison row comes from a pair with strictly
positive timings — so the division computing the percentage is only ever
reached with a strictly positive divisor — and a matched pair with a
non-positive timing on either side is skipped: no row, no error. -/
theorem nonpositive_pairs_skipped (current baseline : List RawBench)
    (rs : List CompEntry) (h : chartCompare current baseline = .ok rs) :
    (∀ e ∈ rs, 0 < e.baseline_ns ∧ 0 < e.current_ns ∧
      e.improvement = (e.baseline_ns - e.current_ns) / e.baseline_ns * 100) ∧
    (∀ (n : String) (c b : ℚ), c ≤ 0 ∨ b ≤ 0 →
      chartCompare [⟨some n, some (PyVal.num c)⟩] [⟨some n, some (PyVal.num b)⟩]
        = .ok []) := by
  constructor
  · cases hbl : buildLookup baseline with
    | error e => simp only [chartCompare, hbl] at h; exact absurd h (by simp)
    | ok d =>
      simp only [chartCompare, hbl] at h
      have hrs := chartLoop_ok_eq_filterMap d current rs h
      intro e he
      rw [hrs] at he
      rcases List.mem_filterMap.1 he with ⟨c, hc, hce⟩
      cases hcn : c.name with
      | none => simp [emitPure, hcn] at hce
      | some nm =>
        cases hcf : dictFind d nm with
        | none => simp [emitPure, hcn, hcf] at hce
        | some bb =>
          by_cases hcond : 0 < asNum (getNs bb) ∧ 0 < asNum (getNs c)
          · simp only [emitPure, hcn, hcf, if_pos hcond, Option.some.injEq] at hce
            rw [← hce]
            exact ⟨hcond.1, hcond.2, rfl⟩
          · simp [emitPure, hcn, hcf, if_neg hcond] at hce
  · intro n c b hcb
    have hfind : dictFind [(n, (⟨some n, some (PyVal.num b)⟩ : RawBench))] n
        = some ⟨some n, some (PyVal.num b)⟩ := by
      simp [dictFind, List.find?]
    by_cases hbpos : (0:ℚ) < b
    · have hc0 : c ≤ 0 := by
        rcases hcb with h1 | h1
        · exact h1
        · linarith
      have hgb : pyGt (PyVal.num b) 0 = .ok true := by simp [pyGt, hbpos]
      have hgc : pyGt (PyVal.num c) 0 = .ok false := by
        simp [pyGt, not_lt.mpr hc0]
      simp [chartCompare, buildLookup, chartLoop, hfind, getNs, hgb, hgc]
    · have hgb : pyGt (PyVal.num b) 0 = .ok false := by simp [pyGt, hbpos]
      simp [chartCompare, buildLookup, chartLoop, hfind, getNs, hgb]

/-- C7 witness: the theorem applied to the run pair current = [A, 100],
baseline = [] (which succeeds with no rows), and its skip clause applied
to the matched pair with baseline timing 0. -/
theorem nonpositive_pairs_skipped_witness :
    chartCompare [⟨some "A", some (PyVal.num 100)⟩]
      [⟨some "A", some (PyVal.num 0)⟩] = .ok [] :=
  (nonpositive_pairs_skipped [⟨some "A", some (PyVal.num 100)⟩] [] [] rfl).2
    "A" 100 0 (Or.inr le_rfl)

/-- C8: a current benchmark is paired with a baseline benchmark exactly by
character-for-character name equality — the dict lookup returns the last
baseline occurrence of the name (last-write-wins, no crash on duplicates);
"X" matches neither "x" nor "X " (no normalization), and with duplicate
baseline names the later timing is the one compared. -/
theorem name_matching_last_wins (baseline : List RawBench)
    (d : List (String × RawBench)) (h : buildLookup baseline = .ok d) (n : String) :
    dictFind d n = lastMatch baseline n ∧
    chartCompare [⟨some "X", some (PyVal.num 100)⟩]
      [⟨some "x", some (PyVal.num 100)⟩, ⟨some "X ", some (PyVal.num 100)⟩] = .ok [] ∧
    (chartCompare [⟨some "A", some (PyVal.num 100)⟩]
      [⟨some "A", some (PyVal.num 50)⟩, ⟨some "A", some (PyVal.num 200)⟩]).map
        (List.map CompEntry.baseline_ns) = .ok [200] := by
  refine ⟨?_, ?_, ?_⟩
  · induction baseline generalizing d with
    | nil =>
      simp only [buildLookup, Except.ok.injEq] at h
      rw [← h]
      simp [dictFind, lastMatch]
    | cons b rest ih =>
      cases hn : b.name with
      | none => simp [buildLookup, hn] at h
      | some m =>
        cases hr : buildLookup rest with
        | error e => simp [buildLookup, hn, hr] at h
        | ok d' =>
          simp only [buildLookup, hn, hr, Except.ok.injEq] at h
          rw [← h]
          have ihd := ih d' hr
          unfold dictFind at ihd ⊢
          rw [List.find?_append]
          cases hfd : List.find? (fun p => p.1 == n) d' with
          | some pr =>
            have hlm : lastMatch rest n = some pr.2 := by
              rw [← ihd, hfd]
              rfl
            unfold lastMatch at hlm ⊢
            rw [List.filter_cons]
            cases hfr : List.filter (fun x => decide (x.name = some n)) rest with
            | nil => rw [hfr] at hlm; simp at hlm
            | cons y ys =>
              rw [hfr] at hlm
              split
              · rw [List.getLast?_cons_cons, hlm]
                rfl
              · rw [hlm]
                rfl
          | none =>
            have hlm : lastMatch rest n = none := by
              rw [← ihd, hfd]
              rfl
            unfold lastMatch at hlm ⊢
            have hfr := List.getLast?_eq_none_iff.1 hlm
            rw [List.filter_cons, hfr]
            simp only [hfd, Option.none_or]
            by_cases hmn : m = n
            · subst hmn
              simp [List.find?, hn]
            · simp [List.find?, beq_eq_false_iff_ne.mpr hmn, hn, hmn]
  · have hxa : (("X " : String) == "X") = false := beq_eq_false_iff_ne.mpr (by decide)
    have hxb : (("x" : String) == "X") = false := beq_eq_false_iff_ne.mpr (by decide)
    simp [chartCompare, buildLookup, chartLoop, dictFind, List.find?, hxa, hxb]
  · have h200 : pyGt (PyVal.num 200) 0 = .ok true := by
      simp only [pyGt]
      rw [decide_eq_true (by norm_num : (0:ℚ) < 200)]
    have h100 : pyGt (PyVal.num 100) 0 = .ok true := by
      simp only [pyGt]
      rw [decide_eq_true (by norm_num : (0:ℚ) < 100)]
    simp [chartCompare, buildLookup, chartLoop, dictFind, List.find?,
      getNs, asNum, h200, h100, Except.map]

/-- C8 witness: the theorem applied to a baseline with the duplicate name
"A": the dict resolves "A" to the last of the two occurrences. -/
theorem name_matching_last_wins_witness :
    dictFind [("A", (⟨some "A", some (PyVal.num 200)⟩ : RawBench)),
              ("A", (⟨some "A", some (PyVal.num 50)⟩ : RawBench))] "A"
      = lastMatch [⟨some "A", some (PyVal.num 50)⟩,
                   ⟨some "A", some (PyVal.num 200)⟩] "A" :=
  (name_matching_last_wins
    [⟨some "A", some (PyVal.num 50)⟩, ⟨some "A", some (PyVal.num 200)⟩]
    [("A", ⟨some "A", some (PyVal.num 200)⟩), ("A", ⟨some "A", some (PyVal.num 50)⟩)]
    rfl "A").1

/-- C10: each current benchmark increments at most one of the two
counters: regressions + improvements never exceeds the total current
benchmark count, and the derived no-change count is non-negative. -/
theorem counters_within_total (current baseline : List RawBench) (s : Summary)
    (h : create_summary_report current baseline = .ok s) :
    s.regressions + s.improvements ≤ s.total_benchmarks ∧
    s.total_benchmarks = current.length ∧ 0 ≤ s.unchanged := by
  cases hbl : buildLookup baseline with
  | error e => simp [create_summary_report, hbl] at h
  | ok d =>
    cases hsl : summaryLoop d current with
    | error e => simp [create_summary_report, hbl, hsl] at h
    | ok ri =>
      cases hcs : calculate_performance_score current with
      | error e => simp [create_summary_report, hbl, hsl, hcs] at h
      | ok cs =>
        cases hbs : calculate_performance_score baseline with
        | error e => simp [create_summary_report, hbl, hsl, hcs, hbs] at h
        | ok bs =>
          simp only [create_summary_report, hbl, hsl, hcs, hbs, Except.ok.injEq] at h
          have hq := summaryLoop_eq_chartLoop_counts d current
          rw [hsl] at hq
          cases hcl : chartLoop d current with
          | error e => rw [hcl] at hq; exact absurd hq (by simp [Except.map])
          | ok rs =>
            rw [hcl] at hq
            have hri : ri = (countClass rs .Regression, countClass rs .Improvement) := by
              simpa [Except.map] using hq
            have hlen : rs.length ≤ current.length := by
              rw [chartLoop_ok_eq_filterMap d current rs hcl]
              exact List.length_filterMap_le _ _
            have hbound : ri.1 + ri.2 ≤ current.length := by
              rw [hri]
              exact le_trans (countClass_add_le_length rs) hlen
            rw [← h]
            refine ⟨hbound, rfl, ?_⟩
            show (0:ℤ) ≤ (current.length : ℤ) - ri.1 - ri.2
            omega

/-- C10 witness: the theorem applied to a pair with one regression out of
one benchmark. -/
theorem counters_within_total_witness :
    ∃ s, create_summary_report [⟨some "A", some (PyVal.num 210)⟩]
        [⟨some "A", some (PyVal.num 100)⟩] = .ok s ∧
      s.regressions + s.improvements ≤ s.total_benchmarks ∧
      s.total_benchmarks = 1 ∧ 0 ≤ s.unchanged := by
  have hrun : create_summary_report [⟨some "A", some (PyVal.num 210)⟩]
      [⟨some "A", some (PyVal.num 100)⟩]
      = .ok { total_benchmarks := 1, regressions := 1, improvements := 0,
              unchanged := 0, current_score := 9979/100, baseline_score := 999/10,
              score_delta := 9979/100 - 999/10 } := by
    norm_num [create_summary_report, buildLookup, summaryLoop, dictFind, List.find?,
      getNs, pyGt, asNum, changePct, calculate_performance_score, nsValues]
  rcases counters_within_total [⟨some "A", some (PyVal.num 210)⟩]
      [⟨some "A", some (PyVal.num 100)⟩] _ hrun with ⟨h1, h2, h3⟩
  exact ⟨_, hrun, h1, h2, h3⟩

/-- C4: the summary's regression and improvement counts are taken over
exactly the matched positively-timed pairs (the rows the comparison loop
emits), while its no-change count is the total current benchmark count
minus those two — the full `|current.measurements|`, not the number of
emitted rows, so skipped or unmatched benchmarks fall into the unchanged
bucket; for current [A, B] against baseline [A] there is exactly one
comparison row and B counts as unchanged. -/
theorem summary_unchanged_total_rule (current baseline : List RawBench)
    (s : Summary) (rs : List CompEntry)
    (h1 : create_summary_report current baseline = .ok s)
    (h2 : chartCompare current baseline = .ok rs) :
    (s.total_benchmarks = current.length ∧
     s.regressions = countClass rs .Regression ∧
     s.improvements = countClass rs .Improvement ∧
     s.unchanged = (current.length : ℤ) - s.regressions - s.improvements) ∧
    (chartCompare
        [⟨some "A", some (PyVal.num 100)⟩, ⟨some "B", some (PyVal.num 100)⟩]
        [⟨some "A", some (PyVal.num 100)⟩]).map List.length = .ok 1 ∧
    create_summary_report
        [⟨some "A", some (PyVal.num 100)⟩, ⟨some "B", some (PyVal.num 100)⟩]
        [⟨some "A", some (PyVal.num 100)⟩]
      = .ok { total_benchmarks := 2, regressions := 0, improvements := 0,
              unchanged := 2, current_score := 999/10, baseline_score := 999/10,
              score_delta := 0 } := by
  refine ⟨?_, ?_, ?_⟩
  · cases hbl : buildLookup baseline with
    | error e => simp [create_summary_report, hbl] at h1
    | ok d =>
      cases hsl : summaryLoop d current with
      | error e => simp [create_summary_report, hbl, hsl] at h1
      | ok ri =>
        cases hcs : calculate_performance_score current with
        | error e => simp [create_summary_report, hbl, hsl, hcs] at h1
        | ok cs =>
          cases hbs : calculate_performance_score baseline with
          | error e => simp [create_summary_report, hbl, hsl, hcs, hbs] at h1
          | ok bs =>
            simp only [create_summary_report, hbl, hsl, hcs, hbs,
              Except.ok.injEq] at h1
            simp only [chartCompare, hbl] at h2
            have hq := summaryLoop_eq_chartLoop_counts d current
            rw [hsl, h2] at hq
            have hri : ri = (countClass rs .Regression, countClass rs .Improvement) := by
              simpa [Except.map] using hq
            rw [← h1]
            refine ⟨rfl, ?_, ?_, rfl⟩
            · show ri.1 = countClass rs .Regression
              rw [hri]
            · show ri.2 = countClass rs .Improvement
              rw [hri]
  · have hba : (("A" : String) == "B") = false := beq_eq_false_iff_ne.mpr (by decide)
    norm_num [chartCompare, buildLookup, chartLoop, dictFind, List.find?, getNs,
      pyGt, asNum, hba, Except.map]
  · have hba : (("A" : String) == "B") = false := beq_eq_false_iff_ne.mpr (by decide)
    norm_num [create_summary_report, buildLookup, summaryLoop, dictFind,
      List.find?, getNs, pyGt, asNum, changePct, calculate_performance_score,
      nsValues, hba]
    simp

/-- C4 witness: the theorem applied to the scenario-3 pair itself,
current [A, B] against baseline [A]. -/
theorem summary_unchanged_total_rule_witness :
    ∃ s rs, create_summary_report
        [⟨some "A", some (PyVal.num 100)⟩, ⟨some "B", some (PyVal.num 100)⟩]
        [⟨some "A", some (PyVal.num 100)⟩] = .ok s ∧
      chartCompare
        [⟨some "A", some (PyVal.num 100)⟩, ⟨some "B", some (PyVal.num 100)⟩]
        [⟨some "A", some (PyVal.num 100)⟩] = .ok rs ∧
      s.total_benchmarks = 2 ∧
      s.regressions = countClass rs .Regression ∧
      s.improvements = countClass rs .Improvement ∧
      s.unchanged = (2 : ℤ) - s.regressions - s.improvements := by
  have hba : (("A" : String) == "B") = false := beq_eq_false_iff_ne.mpr (by decide)
  have h100 : pyGt (PyVal.num 100) 0 = .ok true := by
    simp only [pyGt]
    rw [decide_eq_true (by norm_num : (0:ℚ) < 100)]
  have hrun : create_summary_report
      [⟨some "A", some (PyVal.num 100)⟩, ⟨some "B", some (PyVal.num 100)⟩]
      [⟨some "A", some (PyVal.num 100)⟩]
      = .ok { total_benchmarks := 2, regressions := 0, improvements := 0,
              unchanged := 2, current_score := 999/10, baseline_score := 999/10,
              score_delta := 0 } := by
    norm_num [create_summary_report, buildLookup, summaryLoop, dictFind,
      List.find?, getNs, pyGt, asNum, changePct, calculate_performance_score,
      nsValues, hba]
    simp
  have hchart : chartCompare
      [⟨some "A", some (PyVal.num 100)⟩, ⟨some "B", some (PyVal.num 100)⟩]
      [⟨some "A", some (PyVal.num 100)⟩]
      = .ok [{ name := "A".replace "Benchmark" "", current_ns := 100,
               baseline_ns := 100, improvement := (100 - 100) / 100 * 100 }] := by
    simp [chartCompare, buildLookup, chartLoop, dictFind, List.find?, getNs,
      asNum, h100, hba]
  rcases summary_unchanged_total_rule _ _ _ _ hrun hchart with ⟨⟨ht, hr, hi, hu⟩, _, _⟩
  exact ⟨_, _, hrun, hchart, ht, hr, hi, hu⟩

/-- C5: comparison rows are emitted in the current run's iteration order —
the result is exactly a `filterMap` of the per-entry emission over the
current list — and, for runs with unique benchmark names as the data model
prescribes, the number of rows is at most min(|current|, |baseline|). -/
theorem chartCompare_order_and_length (current baseline : List RawBench)
    (rs : List CompEntry) (h : chartCompare current baseline = .ok rs)
    (hnd : (current.map RawBench.name).Nodup) :
    (∃ d, buildLookup baseline = .ok d ∧ rs = current.filterMap (emitPure d)) ∧
    rs.length ≤ current.length ∧ rs.length ≤ baseline.length := by
  cases hbl : buildLookup baseline with
  | error e => simp [chartCompare, hbl] at h
  | ok d =>
    simp only [chartCompare, hbl] at h
    have hrs := chartLoop_ok_eq_filterMap d current rs h
    refine ⟨⟨d, rfl, hrs⟩, ?_, ?_⟩
    · rw [hrs]
      exact List.length_filterMap_le _ _
    · rw [hrs, length_filterMap_eq_length_filter]
      have hsub : List.Sublist (current.filter (fun c => (emitPure d c).isSome)) current :=
        List.filter_sublist current
      have hnd2 : ((current.filter (fun c => (emitPure d c).isSome)).map RawBench.name).Nodup :=
        hnd.sublist (hsub.map RawBench.name)
      have hsubset : ∀ y ∈ (current.filter (fun c => (emitPure d c).isSome)).map RawBench.name,
          y ∈ baseline.map RawBench.name := by
        intro y hy
        rcases List.mem_map.1 hy with ⟨c, hcmem, hcy⟩
        have hcsome : (emitPure d c).isSome = true := (List.mem_filter.1 hcmem).2
        rcases Option.isSome_iff_exists.1 hcsome with ⟨e, he⟩
        cases hcn : c.name with
        | none => simp [emitPure, hcn] at he
        | some nm =>
          cases hcf : dictFind d nm with
          | none => simp [emitPure, hcn, hcf] at he
          | some bb =>
            have hfind : ∃ pr, List.find? (fun p => p.1 == nm) d = some pr := by
              unfold dictFind at hcf
              cases hfd : List.find? (fun p => p.1 == nm) d with
              | none => rw [hfd] at hcf; simp at hcf
              | some pr => exact ⟨pr, rfl⟩
            rcases hfind with ⟨pr, hpr⟩
            have hmem := List.mem_of_find?_eq_some hpr
            have hkey := List.find?_some hpr
            have hkeq : pr.1 = nm := by simpa using hkey
            rcases buildLookup_mem_name baseline d hbl pr hmem with ⟨x, hx, hxn⟩
            rw [← hcy, hcn]
            rw [hkeq] at hxn
            exact List.mem_map.2 ⟨x, hx, hxn⟩
      calc (current.filter (fun c => (emitPure d c).isSome)).length
          = ((current.filter (fun c => (emitPure d c).isSome)).map RawBench.name).length := by
            rw [List.length_map]
        _ = ((current.filter (fun c => (emitPure d c).isSome)).map
              RawBench.name).toFinset.card := by
            rw [List.toFinset_card_of_nodup hnd2]
        _ ≤ (baseline.map RawBench.name).toFinset.card := Finset.card_le_card (fun x hx => by
            rw [List.mem_toFinset] at hx ⊢
            exact hsubset x hx)
        _ ≤ (baseline.map RawBench.name).length := List.toFinset_card_le _
        _ = baseline.length := by rw [List.length_map]

/-- C5 witness: the theorem applied to a one-benchmark pair whose current
timing is 0 — the pair is skipped and no row is emitted. -/
theorem chartCompare_order_and_length_witness :
    (∃ d, buildLookup [⟨some "A", some (PyVal.num 1)⟩] = .ok d ∧
      ([] : List CompEntry) = [(⟨some "A", some (PyVal.num 0)⟩ : RawBench)].filterMap
        (emitPure d)) ∧
    ([] : List CompEntry).length ≤ [(⟨some "A", some (PyVal.num 0)⟩ : RawBench)].length ∧
    ([] : List CompEntry).length ≤ [(⟨some "A", some (PyVal.num 1)⟩ : RawBench)].length := by
  refine chartCompare_order_and_length [⟨some "A", some (PyVal.num 0)⟩]
    [⟨some "A", some (PyVal.num 1)⟩] [] ?_ (by simp)
  have h1 : pyGt (PyVal.num 1) 0 = .ok true := by
    simp only [pyGt]
    rw [decide_eq_true (by norm_num : (0:ℚ) < 1)]
  have h0 : pyGt (PyVal.num 0) 0 = .ok false := by
    simp only [pyGt]
    rw [decide_eq_false (by norm_num : ¬ (0:ℚ) < 0)]
  simp [chartCompare, buildLookup, chartLoop, dictFind, List.find?, getNs, h1, h0]

/-- C6 counterexample: a current benchmark entry without a `name` key makes
the comparison raise `KeyError` — the run aborts instead of excluding the
entry, so the claim fails on this input. -/
theorem malformed_name_aborts :
    create_summary_report [⟨none, some (PyVal.num 100)⟩] [] = .error .keyError := by
  rfl

/-- C6 (amended): an entry whose `ns_per_op` key is merely absent is
defaulted to 0 and its pair skipped without error; but an entry lacking
`name` raises `KeyError` and one carrying a string `ns_per_op` raises
`TypeError` at the comparison — for those malformed entries an exception
escapes and the whole comparison aborts. -/
theorem malformed_entries_behavior :
    create_summary_report [⟨some "A", none⟩] [⟨some "A", some (PyVal.num 100)⟩]
      = .ok { total_benchmarks := 1, regressions := 0, improvements := 0,
              unchanged := 1, current_score := 0, baseline_score := 999/10,
              score_delta := 0 - 999/10 } ∧
    create_summary_report [⟨some "A", some (PyVal.str "fast")⟩]
      [⟨some "A", some (PyVal.num 100)⟩] = .error .typeError ∧
    chartCompare [⟨some "B", some (PyVal.num 100)⟩, ⟨none, some (PyVal.num 100)⟩] []
      = .error .keyError := by
  refine ⟨?_, ?_, rfl⟩
  · norm_num [create_summary_report, buildLookup, summaryLoop, dictFind, List.find?,
      getNs, pyGt, asNum, changePct, calculate_performance_score, nsValues]
  · norm_num [create_summary_report, buildLookup, summaryLoop, dictFind, List.find?,
      getNs, pyGt, asNum, calculate_performance_score, nsValues]

/-- C9: the loader returns `none` exactly when the document is absent,
unreadable or malformed, and on success returns the parsed benchmark list
unchanged, in document order; failures are returned to the caller, never
raised. -/
theorem load_error_conditions (d : DocOutcome) :
    (load_performance_data d = none ↔
      (d = .absent ∨ d = .unreadable ∨ d = .malformed)) ∧
    ∀ benchmarks, load_performance_data (.parsed benchmarks) = some benchmarks := by
  refine ⟨?_, fun benchmarks => rfl⟩
  cases d <;> simp [load_performance_data]

end PerfCharts
